import Mathlib

/-!
Verification development for the per-user memory subsystem of the
ai-agent-coach PoC repository.

The embedding mirrors, definition by definition:
* `memory-types.ts` — the `MemoryType` union and the `Memory` record;
* `memory-storage.ts` — `saveMemory`, `loadMemories`, `searchMemories`,
  `updateMemoryAccess`, `cleanupOldMemories`;
* `memory-analyzer.ts` — the keyword tables (`PATTERNS`), the keyword save
  decision (`analyzeSaveDecision`), the hybrid LLM decision
  (`analyzeSaveDecisionWithLLM`), and the retrieval decision
  (`analyzeRetrievalDecision`).

Modelling conventions:
* Timestamps are epoch milliseconds (`Int`).  A JavaScript `Date` serializes
  through `JSON.stringify` to its ISO-8601 string and `new Date(s)` inverts
  that encoding exactly at millisecond precision, so the composite codec is
  modelled as the identity on the milliseconds value, represented by the
  `date` constructor of the JSON value model.
* JavaScript numbers are modelled as exact rationals (`ℚ`): all of the
  constants the program computes with (0.3, 0.6, 0.7, 0.8, 0.9, 1.1, ...)
  and the arithmetic on them are modelled at the level of the formulas the
  source writes.
* The stored values of this program are flat: every record field and every
  content-payload field is a null/boolean/number/string/date/string-array,
  and a content payload is a flat object of such atoms.  The JSON value
  model is therefore two-level (`JsonAtom` inside `Json`), which represents
  every value the program ever stores.
* File-system state is a map from user id to the optional list of lines of
  that user's `.jsonl` file; a line is either a parseable JSON object or a
  malformed string (the model of a line on which `JSON.parse` throws).
-/

set_option maxRecDepth 10000

/-- `MemoryType` from `memory-types.ts`: the union of memory type tags. -/
inductive MemoryType where
  | learning_progress
  | learning_challenge
  | commitment
  | emotional_state
  | milestone
  | preference
  | custom
deriving DecidableEq, Repr

/-- The string tag of a `MemoryType`, as it appears in stored JSON. -/
def typeString : MemoryType → String
  | .learning_progress => "learning_progress"
  | .learning_challenge => "learning_challenge"
  | .commitment => "commitment"
  | .emotional_state => "emotional_state"
  | .milestone => "milestone"
  | .preference => "preference"
  | .custom => "custom"

/-- Inverse of `typeString` on valid tags. -/
def typeOfString (s : String) : Option MemoryType :=
  if s = "learning_progress" then some .learning_progress
  else if s = "learning_challenge" then some .learning_challenge
  else if s = "commitment" then some .commitment
  else if s = "emotional_state" then some .emotional_state
  else if s = "milestone" then some .milestone
  else if s = "preference" then some .preference
  else if s = "custom" then some .custom
  else none

/-- Atomic JSON values stored by the program.  `date ms` models a string
that is the ISO-8601 rendering of the instant `ms` (in epoch milliseconds);
`new Date` applied to it recovers `ms` exactly. -/
inductive JsonAtom where
  | null
  | bool (b : Bool)
  | num (q : ℚ)
  | str (s : String)
  | date (ms : Int)
  | strArr (xs : List String)
deriving DecidableEq, Repr

/-- A JSON value as stored in a record field: an atom or a flat object
(the shape of every `content` payload the program writes). -/
inductive Json where
  | atom (a : JsonAtom)
  | obj (fields : List (String × JsonAtom))
deriving DecidableEq, Repr

/-- The JSON image of one stored line: a flat list of named fields. -/
def LineJson := List (String × Json)

instance : DecidableEq LineJson := by
  unfold LineJson; infer_instance

instance : Repr LineJson := by
  unfold LineJson; infer_instance

/-- `Memory` from `memory-types.ts`. -/
structure Memory where
  id : String
  userId : String
  sessionId : String
  type : MemoryType
  content : Json
  timestamp : Int
  relevance : ℚ
  accessed : Nat
  lastAccessed : Option Int
  tags : List String
  expired : Bool
  expiresAt : Option Int
deriving DecidableEq, Repr

/-- `Omit<Memory, 'id' | 'timestamp' | 'accessed'>`: the caller-supplied part
of a record handed to `saveMemory`. -/
structure MemoryInput where
  userId : String
  sessionId : String
  type : MemoryType
  content : Json
  relevance : ℚ
  lastAccessed : Option Int
  tags : List String
  expired : Bool
  expiresAt : Option Int
deriving DecidableEq, Repr

/-- `JSON.stringify` of a full `Memory` record, as the JSON object written to
one line of the per-user file.  Optional fields that are `undefined`
(`lastAccessed`, `expiresAt`) are omitted by `JSON.stringify`. -/
def serializeMemory (m : Memory) : LineJson :=
  [("id", .atom (.str m.id)),
   ("userId", .atom (.str m.userId)),
   ("sessionId", .atom (.str m.sessionId)),
   ("type", .atom (.str (typeString m.type))),
   ("content", m.content),
   ("timestamp", .atom (.date m.timestamp)),
   ("relevance", .atom (.num m.relevance)),
   ("accessed", .atom (.num (m.accessed : ℚ)))]
  ++ (match m.lastAccessed with
      | some t => [("lastAccessed", .atom (.date t))]
      | none => [])
  ++ [("tags", .atom (.strArr m.tags)),
      ("expired", .atom (.bool m.expired))]
  ++ (match m.expiresAt with
      | some t => [("expiresAt", .atom (.date t))]
      | none => [])

/-- Read a string field of a parsed line. -/
def asStr : Option Json → Option String
  | some (.atom (.str s)) => some s
  | _ => none

/-- Read a numeric field of a parsed line. -/
def asNum : Option Json → Option ℚ
  | some (.atom (.num q)) => some q
  | _ => none

/-- Read a non-negative integer field of a parsed line. -/
def asNat : Option Json → Option Nat
  | some (.atom (.num q)) =>
      if q.den = 1 ∧ 0 ≤ q.num then some q.num.toNat else none
  | _ => none

/-- Read a boolean field of a parsed line. -/
def asBool : Option Json → Option Bool
  | some (.atom (.bool b)) => some b
  | _ => none

/-- Read a date field of a parsed line (the `new Date(x)` restoration that
`loadMemories` performs on `timestamp`). -/
def asDate : Option Json → Option Int
  | some (.atom (.date ms)) => some ms
  | _ => none

/-- Read an optional date field (`lastAccessed` / `expiresAt`): an absent
field stays `undefined`; a present field is restored with `new Date`. -/
def asOptDate : Option Json → Option (Option Int)
  | none => some none
  | some (.atom (.date ms)) => some (some ms)
  | _ => none

/-- Read a string-array field of a parsed line. -/
def asStrList : Option Json → Option (List String)
  | some (.atom (.strArr xs)) => some xs
  | _ => none

/-- Decode one parsed line back into a typed `Memory` record: the field
reads the program performs on the `JSON.parse` result, together with the
`Date` restoration of `timestamp` / `lastAccessed` / `expiresAt` done in
`loadMemories`.  Field order in the line is irrelevant (lookup by name). -/
def decodeMemory (j : LineJson) : Option Memory := do
  let id ← asStr (j.lookup "id")
  let userId ← asStr (j.lookup "userId")
  let sessionId ← asStr (j.lookup "sessionId")
  let ty ← (asStr (j.lookup "type")).bind typeOfString
  let content ← j.lookup "content"
  let timestamp ← asDate (j.lookup "timestamp")
  let relevance ← asNum (j.lookup "relevance")
  let accessed ← asNat (j.lookup "accessed")
  let lastAccessed ← asOptDate (j.lookup "lastAccessed")
  let tags ← asStrList (j.lookup "tags")
  let expired ← asBool (j.lookup "expired")
  let expiresAt ← asOptDate (j.lookup "expiresAt")
  pure { id := id, userId := userId, sessionId := sessionId, type := ty,
         content := content, timestamp := timestamp, relevance := relevance,
         accessed := accessed, lastAccessed := lastAccessed, tags := tags,
         expired := expired, expiresAt := expiresAt }

lemma typeOfString_typeString (t : MemoryType) :
    typeOfString (typeString t) = some t := by
  cases t <;> rfl

lemma decodeMemory_serializeMemory (m : Memory) :
    decodeMemory (serializeMemory m) = some m := by
  obtain ⟨id, userId, sessionId, ty, content, ts, rel, acc, la, tags, exp, ea⟩ := m
  cases la <;> cases ea <;>
    simp [serializeMemory, decodeMemory, List.lookup, asStr, asNum, asNat,
          asBool, asDate, asOptDate, asStrList, typeOfString_typeString,
          Option.bind, Rat.den_natCast]

/-- One line of a per-user `.jsonl` file: either a line whose `JSON.parse`
succeeds with the given object, or a malformed line on which it throws. -/
inductive RawLine where
  | json (j : LineJson)
  | malformed (s : String)
deriving DecidableEq, Repr

/-- The model of `JSON.parse` on one stored line. -/
def parseRawLine : RawLine → Option LineJson
  | .json j => some j
  | .malformed _ => none

/-- The file system seen by `memory-storage.ts`: for each user id, the
optional list of (non-blank) lines of `data/memories/userId.jsonl`;
`none` models a missing file. -/
def FS := String → Option (List RawLine)

/-- The parse-and-restore step applied to each line by `loadMemories`
(`JSON.parse` in a try/catch that yields null on failure, then `Date`
restoration; a parsed object that does not carry the record fields is the
model's parse failure, standing for the source's unchecked cast). -/
def decodeLine (l : RawLine) : Option Memory :=
  (parseRawLine l).bind decodeMemory

/-- `loadMemories(userId)` from `memory-storage.ts`: missing file yields the
empty collection; otherwise map the parse step over the lines and drop the
failures (`.map(...).filter(m => m !== null)`). -/
def loadMemories (fs : FS) (userId : String) : List Memory :=
  match fs userId with
  | none => []
  | some lines => ((lines.map decodeLine).filter (fun m => m ≠ none)).reduceOption

/-- `saveMemory(memory)` from `memory-storage.ts`: completes the record with
a fresh `id`, `timestamp = new Date()`, `accessed = 0`, appends its
`JSON.stringify` line to the owner's file (creating the file if missing),
and returns the finalized record. -/
def saveMemory (fs : FS) (memory : MemoryInput) (newId : String) (now : Int) :
    FS × Memory :=
  let fullMemory : Memory :=
    { id := newId, userId := memory.userId, sessionId := memory.sessionId,
      type := memory.type, content := memory.content, timestamp := now,
      relevance := memory.relevance, accessed := 0,
      lastAccessed := memory.lastAccessed, tags := memory.tags,
      expired := memory.expired, expiresAt := memory.expiresAt }
  let line := RawLine.json (serializeMemory fullMemory)
  (fun u => if u = memory.userId
            then some (((fs memory.userId).getD []) ++ [line])
            else fs u,
   fullMemory)

/-- `MemorySearchCriteria` from `memory-types.ts`.  `type` accepts a single
type or a list (the source normalizes with `Array.isArray`). -/
structure MemorySearchCriteria where
  userId : Option String := none
  type : Option (MemoryType ⊕ List MemoryType) := none
  tags : Option (List String) := none
  fromDate : Option Int := none
  toDate : Option Int := none
  minRelevance : Option ℚ := none
  notExpired : Bool := false
  limit : Option Nat := none

/-- The type filter of `searchMemories`: a single type is wrapped into a
one-element list (`Array.isArray` normalization), then `types.includes`. -/
def filterByType (criteria : MemorySearchCriteria) (memories : List Memory) :
    List Memory :=
  match criteria.type with
  | none => memories
  | some tf =>
      let types := match tf with
        | .inl t => [t]
        | .inr ts => ts
      memories.filter (fun m => types.contains m.type)

/-- The tag filter of `searchMemories`: applied only when a non-empty tag
list is given; keeps a record when some requested tag occurs in its tags. -/
def filterByTags (criteria : MemorySearchCriteria) (memories : List Memory) :
    List Memory :=
  match criteria.tags with
  | some ts =>
      if ts.length > 0 then
        memories.filter (fun m => ts.any (fun tag => m.tags.contains tag))
      else memories
  | none => memories

/-- The date-range filter of `searchMemories`: inclusive bounds on
`timestamp`. -/
def filterByDateRange (criteria : MemorySearchCriteria)
    (memories : List Memory) : List Memory :=
  let memories : List Memory := match criteria.fromDate with
    | some d => memories.filter (fun m => d ≤ m.timestamp)
    | none => memories
  match criteria.toDate with
  | some d => memories.filter (fun m => m.timestamp ≤ d)
  | none => memories

/-- The relevance-threshold filter of `searchMemories`. -/
def filterByMinRelevance (criteria : MemorySearchCriteria)
    (memories : List Memory) : List Memory :=
  match criteria.minRelevance with
  | some r => memories.filter (fun m => r ≤ m.relevance)
  | none => memories

/-- The per-record expiry test of `searchMemories` under `notExpired`:
reject when the `expired` flag is set, reject when `expiresAt` is present
and strictly in the past, keep otherwise. -/
def notExpiredCheck (now : Int) (m : Memory) : Bool :=
  if m.expired then false
  else match m.expiresAt with
    | some e => if e < now then false else true
    | none => true

/-- The expiry filter of `searchMemories`: active only when
`criteria.notExpired` is truthy. -/
def filterByExpiry (criteria : MemorySearchCriteria) (now : Int)
    (memories : List Memory) : List Memory :=
  if criteria.notExpired then memories.filter (notExpiredCheck now)
  else memories

/-- `memories.sort((a, b) => b.relevance - a.relevance)`: stable sort by
descending relevance. -/
def sortByRelevance (memories : List Memory) : List Memory :=
  memories.mergeSort (fun a b => b.relevance ≤ a.relevance)

/-- The truncation step of `searchMemories`: `if (criteria.limit)` — a
`limit` of 0 is falsy in the source and does not truncate. -/
def applyLimit (criteria : MemorySearchCriteria) (memories : List Memory) :
    List Memory :=
  match criteria.limit with
  | some k => if k = 0 then memories else memories.take k
  | none => memories

/-- The filter/sort/truncate pipeline of `searchMemories` applied to an
already-loaded collection, in source order: type, tags, date range,
relevance threshold, expiry, sort by `relevance` descending (stable), then
`limit`. -/
def searchPipeline (memories0 : List Memory) (criteria : MemorySearchCriteria)
    (now : Int) : List Memory :=
  applyLimit criteria
    (sortByRelevance
      (filterByExpiry criteria now
        (filterByMinRelevance criteria
          (filterByDateRange criteria
            (filterByTags criteria
              (filterByType criteria memories0))))))

/-- `searchMemories(criteria)` from `memory-storage.ts`: requires `userId`
(a missing or empty id throws), loads the user's collection fresh, and runs
the filter pipeline. -/
def searchMemories (fs : FS) (criteria : MemorySearchCriteria) (now : Int) :
    Except String (List Memory) :=
  match criteria.userId with
  | none => .error "userId is required for memory search"
  | some uid =>
      if uid = "" then .error "userId is required for memory search"
      else .ok (searchPipeline (loadMemories fs uid) criteria now)

/-- The mutation `updateMemoryAccess` applies to the matched record:
increment `accessed`, set `lastAccessed = now`. -/
def touchRecord (now : Int) (m : Memory) : Memory :=
  { m with accessed := m.accessed + 1, lastAccessed := some now }

/-- `updateMemoryAccess(userId, memoryId)` from `memory-storage.ts`: load the
collection, find the record by id; if absent, warn and return without
touching the file; otherwise apply `touchRecord` to that one record and
rewrite the whole file from the mutated collection. -/
def updateMemoryAccess (fs : FS) (userId memoryId : String) (now : Int) : FS :=
  let memories := loadMemories fs userId
  match memories.findIdx? (fun m => m.id = memoryId) with
  | none => fs
  | some i =>
      let memories := memories.modify (touchRecord now) i
      fun u => if u = userId
               then some (memories.map (fun m => RawLine.json (serializeMemory m)))
               else fs u

/-- The keep-predicate of `cleanupOldMemories`: a record survives when it is
high-relevance, recent (strictly newer than the cutoff), frequently
accessed, or a milestone. -/
def cleanupKeep (cutoff : Int) (m : Memory) : Bool :=
  if (0.7 : ℚ) ≤ m.relevance then true
  else if cutoff < m.timestamp then true
  else if 3 ≤ m.accessed then true
  else if m.type = MemoryType.milestone then true
  else false

/-- Milliseconds per day; `cutoffDate.setDate(getDate() - daysOld)` moves the
cutoff `daysOld` civil days into the past, modelled as `daysOld` exact days
of milliseconds. -/
def msPerDay : Int := 86400000

/-- `cleanupOldMemories(userId, daysOld)` from `memory-storage.ts`: drop the
records that fail every keep-condition, rewrite the file when anything was
dropped, and return the number of dropped records. -/
def cleanupOldMemories (fs : FS) (userId : String) (daysOld : Nat) (now : Int) :
    FS × Nat :=
  let memories := loadMemories fs userId
  let cutoff := now - (daysOld : Int) * msPerDay
  let memoriesToKeep := memories.filter (cleanupKeep cutoff)
  let deletedCount := memories.length - memoriesToKeep.length
  if deletedCount > 0 then
    (fun u => if u = userId
              then some (memoriesToKeep.map (fun m => RawLine.json (serializeMemory m)))
              else fs u,
     deletedCount)
  else (fs, deletedCount)

lemma filter_ne_none_reduceOption {α : Type} [DecidableEq α] (l : List (Option α)) :
    (l.filter (fun m => decide (m ≠ none))).reduceOption = l.reduceOption := by
  induction l with
  | nil => rfl
  | cons h t ih => cases h <;> simp_all [List.reduceOption]

lemma loadMemories_filterMap (fs : FS) (userId : String) (lines : List RawLine)
    (h : fs userId = some lines) :
    loadMemories fs userId = lines.filterMap decodeLine := by
  unfold loadMemories
  rw [h]
  show ((lines.map decodeLine).filter (fun m => decide (m ≠ none))).reduceOption = _
  rw [filter_ne_none_reduceOption]
  simp [List.reduceOption, List.filterMap_map, Function.comp]

lemma loadMemories_of_serialized (fs : FS) (userId : String) (ms : List Memory)
    (h : fs userId = some (ms.map (fun m => RawLine.json (serializeMemory m)))) :
    loadMemories fs userId = ms := by
  rw [loadMemories_filterMap fs userId _ h, List.filterMap_map]
  have hcomp : (decodeLine ∘ fun m => RawLine.json (serializeMemory m)) =
      fun m => some m := by
    funext m
    simp [decodeLine, parseRawLine, decodeMemory_serializeMemory]
  rw [hcomp]
  simp

lemma mem_applyLimit {criteria : MemorySearchCriteria} {ms : List Memory}
    {m : Memory} (h : m ∈ applyLimit criteria ms) : m ∈ ms := by
  unfold applyLimit at h
  split at h
  · split at h
    · exact h
    · exact List.mem_of_mem_take h
  · exact h

lemma mem_sortByRelevance {ms : List Memory} {m : Memory} :
    m ∈ sortByRelevance ms ↔ m ∈ ms := by
  unfold sortByRelevance
  exact List.mem_mergeSort

lemma notExpiredCheck_spec (now : Int) (m : Memory) :
    notExpiredCheck now m = true ↔
      m.expired = false ∧ ∀ e, m.expiresAt = some e → ¬ e < now := by
  unfold notExpiredCheck
  cases hx : m.expired
  · cases he : m.expiresAt with
    | none => simp
    | some e =>
        by_cases hlt : e < now
        · simp [hlt]
        · simp only [hlt, if_false]
          simp [hlt]
          omega
  · simp

/-- Claim C6: for every criteria with `notExpired = true`, no record returned
by `searchMemories` has `expired = true`, and no returned record has an
`expiresAt` that lies strictly in the past at the time of the search. -/
theorem search_notExpired_excludes_expired (fs : FS)
    (criteria : MemorySearchCriteria) (now : Int) (res : List Memory)
    (hne : criteria.notExpired = true)
    (hok : searchMemories fs criteria now = .ok res) :
    ∀ m ∈ res, m.expired = false ∧ ∀ e, m.expiresAt = some e → ¬ e < now := by
  unfold searchMemories at hok
  cases hu : criteria.userId with
  | none => rw [hu] at hok; cases hok
  | some uid =>
      rw [hu] at hok
      by_cases huid : uid = ""
      · simp [huid] at hok
      · simp only [huid, if_false] at hok
        have hres : res = searchPipeline (loadMemories fs uid) criteria now := by
          cases hok; rfl
        subst hres
        intro m hm
        unfold searchPipeline at hm
        have h1 := mem_sortByRelevance.mp (mem_applyLimit hm)
        unfold filterByExpiry at h1
        rw [hne] at h1
        simp only [if_true] at h1
        exact (notExpiredCheck_spec now m).mp (List.of_mem_filter h1)

/-- A live and an already-expired sample record, for the C6 witness. -/
def mC6live : Memory :=
  { id := "live", userId := "u6", sessionId := "s", type := .custom,
    content := Json.atom .null, timestamp := 100, relevance := mkRat 1 2,
    accessed := 0, lastAccessed := none, tags := [], expired := false,
    expiresAt := some 1000 }

def mC6dead : Memory :=
  { id := "dead", userId := "u6", sessionId := "s", type := .custom,
    content := Json.atom .null, timestamp := 50, relevance := mkRat 9 10,
    accessed := 0, lastAccessed := none, tags := [], expired := true,
    expiresAt := none }

def mC6past : Memory :=
  { id := "past", userId := "u6", sessionId := "s", type := .custom,
    content := Json.atom .null, timestamp := 60, relevance := mkRat 8 10,
    accessed := 0, lastAccessed := none, tags := [], expired := false,
    expiresAt := some 200 }

def fsC6 : FS := fun u =>
  if u = "u6" then
    some [RawLine.json (serializeMemory mC6live),
          RawLine.json (serializeMemory mC6dead),
          RawLine.json (serializeMemory mC6past)]
  else none

def critC6 : MemorySearchCriteria := { userId := some "u6", notExpired := true }

unseal Rat.ofScientific Rat.mul List.merge List.mergeSort in
theorem search_notExpired_excludes_expired_witness :
    mC6live.expired = false ∧ ∀ e, mC6live.expiresAt = some e → ¬ e < 500 := by
  have h := search_notExpired_excludes_expired fsC6 critC6 500 [mC6live]
    rfl (by rfl)
  exact h mC6live (by decide)

/-- Claim C7: `loadMemories` returns the empty collection (not an error) when
the user's file is missing, and when the file exists it returns exactly the
records of the parseable lines in file order, skipping (not failing on)
every line that fails to parse. -/
theorem loadAll_missing_empty_and_skips_bad_lines (fs : FS) (userId : String) :
    (fs userId = none → loadMemories fs userId = []) ∧
    ∀ lines, fs userId = some lines →
      loadMemories fs userId = lines.filterMap decodeLine := by
  constructor
  · intro h
    unfold loadMemories
    rw [h]
  · intro lines h
    exact loadMemories_filterMap fs userId lines h

def mC7a : Memory :=
  { id := "a", userId := "u7", sessionId := "s", type := .commitment,
    content := Json.obj [("task", .str "hw"), ("deadline", .date 900),
                         ("completed", .bool false)],
    timestamp := 10, relevance := mkRat 1 2, accessed := 0,
    lastAccessed := none, tags := ["commitment"], expired := false,
    expiresAt := none }

def mC7b : Memory :=
  { id := "b", userId := "u7", sessionId := "s", type := .emotional_state,
    content := Json.obj [("emotion", .str "tired"), ("intensity", .num 3)],
    timestamp := 20, relevance := mkRat 3 4, accessed := 1,
    lastAccessed := some 30, tags := ["emotion", "tired"], expired := false,
    expiresAt := none }

def fsC7 : FS := fun u =>
  if u = "u7" then
    some [RawLine.json (serializeMemory mC7a),
          RawLine.malformed "not json at all",
          RawLine.json (serializeMemory mC7b)]
  else none

unseal Rat.ofScientific Rat.mul List.merge List.mergeSort in
theorem loadAll_missing_empty_and_skips_bad_lines_witness :
    loadMemories fsC7 "u7" = [mC7a, mC7b] ∧ loadMemories fsC7 "ghost" = [] := by
  constructor
  · rw [(loadAll_missing_empty_and_skips_bad_lines fsC7 "u7").2
        [RawLine.json (serializeMemory mC7a),
         RawLine.malformed "not json at all",
         RawLine.json (serializeMemory mC7b)] (by rfl)]
    decide
  · exact (loadAll_missing_empty_and_skips_bad_lines fsC7 "ghost").1 rfl

/-- Claim C9: serializing a memory to its stored line and deserializing that
line reproduces the record exactly (for every record of any type variant,
field order being irrelevant since decoding is by field name); consequently
after `saveMemory` the owner's `loadMemories` contains a record that agrees
with the input on every field and carries the server-assigned `id`,
`timestamp`, and `accessed = 0`. -/
theorem serialize_roundtrip_and_append_loadAll :
    (∀ m : Memory, decodeMemory (serializeMemory m) = some m) ∧
    ∀ (fs : FS) (input : MemoryInput) (newId : String) (now : Int),
      (saveMemory fs input newId now).2 ∈
          loadMemories (saveMemory fs input newId now).1 input.userId ∧
      (saveMemory fs input newId now).2.userId = input.userId ∧
      (saveMemory fs input newId now).2.sessionId = input.sessionId ∧
      (saveMemory fs input newId now).2.type = input.type ∧
      (saveMemory fs input newId now).2.content = input.content ∧
      (saveMemory fs input newId now).2.relevance = input.relevance ∧
      (saveMemory fs input newId now).2.lastAccessed = input.lastAccessed ∧
      (saveMemory fs input newId now).2.tags = input.tags ∧
      (saveMemory fs input newId now).2.expired = input.expired ∧
      (saveMemory fs input newId now).2.expiresAt = input.expiresAt ∧
      (saveMemory fs input newId now).2.id = newId ∧
      (saveMemory fs input newId now).2.timestamp = now ∧
      (saveMemory fs input newId now).2.accessed = 0 := by
  refine ⟨decodeMemory_serializeMemory, ?_⟩
  intro fs input newId now
  have hline : (saveMemory fs input newId now).1 input.userId =
      some (((fs input.userId).getD []) ++
            [RawLine.json (serializeMemory (saveMemory fs input newId now).2)]) := by
    unfold saveMemory
    simp
  have hload := loadMemories_filterMap (saveMemory fs input newId now).1
    input.userId _ hline
  rw [List.filterMap_append] at hload
  refine ⟨?_, rfl, rfl, rfl, rfl, rfl, rfl, rfl, rfl, rfl, rfl, rfl, rfl⟩
  rw [hload]
  apply List.mem_append_right
  simp [decodeLine, parseRawLine, decodeMemory_serializeMemory]

lemma cleanupKeep_eq_false_iff (cutoff : Int) (m : Memory) :
    cleanupKeep cutoff m = false ↔
      m.timestamp ≤ cutoff ∧ m.relevance < 0.7 ∧ m.accessed < 3 ∧
        m.type ≠ MemoryType.milestone := by
  unfold cleanupKeep
  split_ifs with h1 h2 h3 h4
  · simp only [Bool.true_eq_false, false_iff]
    rintro ⟨-, hb, -, -⟩
    exact absurd h1 (not_le.mpr hb)
  · simp only [Bool.true_eq_false, false_iff]
    rintro ⟨ha, -, -, -⟩
    exact absurd h2 (not_lt.mpr ha)
  · simp only [Bool.true_eq_false, false_iff]
    rintro ⟨-, -, hc, -⟩
    omega
  · simp only [Bool.true_eq_false, false_iff]
    rintro ⟨-, -, -, hd⟩
    exact hd h4
  · simp only [true_iff]
    exact ⟨not_lt.mp h2, not_le.mp h1, by omega, h4⟩

/-- Claim C5: `cleanupOldMemories` removes exactly the records that are all
of: older than the retention cutoff, of relevance below 0.7, accessed fewer
than 3 times, and not of type `milestone`; it returns the number of records
removed, and never removes a milestone regardless of its age, relevance, or
access count. -/
theorem cleanup_removes_exactly_policy (fs : FS) (userId : String)
    (daysOld : Nat) (now : Int) :
    loadMemories (cleanupOldMemories fs userId daysOld now).1 userId =
        (loadMemories fs userId).filter
          (cleanupKeep (now - (daysOld : Int) * msPerDay)) ∧
    (cleanupOldMemories fs userId daysOld now).2 =
        ((loadMemories fs userId).filter
          (fun m => !cleanupKeep (now - (daysOld : Int) * msPerDay) m)).length ∧
    (∀ m ∈ loadMemories fs userId,
      (m ∉ loadMemories (cleanupOldMemories fs userId daysOld now).1 userId ↔
        (m.timestamp ≤ now - (daysOld : Int) * msPerDay ∧
         m.relevance < 0.7 ∧ m.accessed < 3 ∧
         m.type ≠ MemoryType.milestone))) ∧
    (∀ m ∈ loadMemories fs userId, m.type = MemoryType.milestone →
      m ∈ loadMemories (cleanupOldMemories fs userId daysOld now).1 userId) := by
  set before := loadMemories fs userId with hbefore
  set cutoff := now - (daysOld : Int) * msPerDay with hcutoff
  have hlen := List.length_eq_length_filter_add (l := before) (cleanupKeep cutoff)
  have hafter : loadMemories (cleanupOldMemories fs userId daysOld now).1 userId
      = before.filter (cleanupKeep cutoff) := by
    unfold cleanupOldMemories
    by_cases hpos : before.length - (before.filter (cleanupKeep cutoff)).length > 0
    · simp only [← hbefore, ← hcutoff, hpos, if_true]
      exact loadMemories_of_serialized _ userId _ (by simp)
    · simp only [← hbefore, ← hcutoff, hpos, if_false]
      have hle := List.length_filter_le (cleanupKeep cutoff) before
      have heq : (before.filter (cleanupKeep cutoff)).length = before.length := by
        omega
      rw [(List.filter_sublist before).eq_of_length heq]
  have hcount : (cleanupOldMemories fs userId daysOld now).2 =
      before.length - (before.filter (cleanupKeep cutoff)).length := by
    unfold cleanupOldMemories
    by_cases hpos : before.length - (before.filter (cleanupKeep cutoff)).length > 0
    · simp only [← hbefore, ← hcutoff, hpos, if_true]
    · simp only [← hbefore, ← hcutoff, hpos, if_false]
  refine ⟨hafter, ?_, ?_, ?_⟩
  · rw [hcount]
    omega
  · intro m hm
    rw [hafter]
    rw [← cleanupKeep_eq_false_iff cutoff m]
    constructor
    · intro hnot
      cases hk : cleanupKeep cutoff m
      · rfl
      · exact absurd (List.mem_filter.mpr ⟨hm, hk⟩) hnot
    · intro hfalse hmem
      rw [(List.mem_filter.mp hmem).2] at hfalse
      cases hfalse
  · intro m hm hmile
    rw [hafter]
    refine List.mem_filter.mpr ⟨hm, ?_⟩
    unfold cleanupKeep
    split_ifs <;> simp_all

def mC5gone : Memory :=
  { id := "gone", userId := "u5", sessionId := "s", type := .custom,
    content := Json.atom .null, timestamp := 0, relevance := mkRat 1 10,
    accessed := 0, lastAccessed := none, tags := [], expired := false,
    expiresAt := none }

def mC5mile : Memory :=
  { id := "mile", userId := "u5", sessionId := "s", type := .milestone,
    content := Json.obj [("event", .str "exam"), ("eventDate", .date 0),
                         ("importance", .str "critical")],
    timestamp := 0, relevance := mkRat 1 10, accessed := 0,
    lastAccessed := none, tags := ["milestone"], expired := false,
    expiresAt := none }

/-- Roughly 40 days after epoch 0, in milliseconds. -/
def tC5 : Int := 3456000000

def fsC5 : FS := fun u =>
  if u = "u5" then
    some [RawLine.json (serializeMemory mC5gone),
          RawLine.json (serializeMemory mC5mile)]
  else none

unseal Rat.ofScientific Rat.mul List.merge List.mergeSort in
theorem cleanup_removes_exactly_policy_witness :
    mC5mile ∈ loadMemories (cleanupOldMemories fsC5 "u5" 30 tC5).1 "u5" ∧
    (cleanupOldMemories fsC5 "u5" 30 tC5).2 = 1 ∧
    mC5gone ∉ loadMemories (cleanupOldMemories fsC5 "u5" 30 tC5).1 "u5" := by
  have h := cleanup_removes_exactly_policy fsC5 "u5" 30 tC5
  refine ⟨h.2.2.2 mC5mile (by decide) (by decide), ?_, ?_⟩
  · rw [h.2.1]; decide
  · exact (h.2.2.1 mC5gone (by decide)).mpr (by decide)

/-- Claim C10: `updateMemoryAccess` on an id present in the user's collection
increments exactly that record's `accessed` counter by 1 and sets its
`lastAccessed`, leaving every other field of that record and every other
record unchanged; on an unknown id it leaves the file system entirely
unchanged. -/
theorem touch_increments_one_record (fs : FS) (userId memoryId : String)
    (now : Int) :
    ((loadMemories fs userId).findIdx? (fun m => m.id = memoryId) = none →
      updateMemoryAccess fs userId memoryId now = fs) ∧
    ∀ i, (loadMemories fs userId).findIdx? (fun m => m.id = memoryId) = some i →
      (loadMemories (updateMemoryAccess fs userId memoryId now) userId).length =
          (loadMemories fs userId).length ∧
      (loadMemories (updateMemoryAccess fs userId memoryId now) userId)[i]? =
          ((loadMemories fs userId)[i]?).map (touchRecord now) ∧
      ∀ j, j ≠ i →
        (loadMemories (updateMemoryAccess fs userId memoryId now) userId)[j]? =
          (loadMemories fs userId)[j]? := by
  constructor
  · intro hnone
    simp only [updateMemoryAccess, hnone]
  · intro i hi
    have hupd : loadMemories (updateMemoryAccess fs userId memoryId now) userId
        = (loadMemories fs userId).modify (touchRecord now) i := by
      apply loadMemories_of_serialized
      simp only [updateMemoryAccess, hi]
      simp
    rw [hupd]
    refine ⟨List.length_modify _ _ _, ?_, ?_⟩
    · rw [List.getElem?_modify]
      cases (loadMemories fs userId)[i]? <;> simp
    · intro j hj
      rw [List.getElem?_modify]
      cases (loadMemories fs userId)[j]? <;> simp [Ne.symm hj]

def mC10x : Memory :=
  { id := "x", userId := "u10", sessionId := "s", type := .custom,
    content := Json.atom .null, timestamp := 1, relevance := mkRat 1 2,
    accessed := 4, lastAccessed := none, tags := [], expired := false,
    expiresAt := none }

def mC10y : Memory :=
  { id := "y", userId := "u10", sessionId := "s", type := .custom,
    content := Json.atom (.str "other"), timestamp := 2, relevance := mkRat 1 4,
    accessed := 0, lastAccessed := some 5, tags := ["t"], expired := false,
    expiresAt := none }

def fsC10 : FS := fun u =>
  if u = "u10" then
    some [RawLine.json (serializeMemory mC10x),
          RawLine.json (serializeMemory mC10y)]
  else none

unseal Rat.ofScientific Rat.mul List.merge List.mergeSort in
theorem touch_increments_one_record_witness :
    (loadMemories (updateMemoryAccess fsC10 "u10" "y" 77) "u10")[1]? =
        some { mC10y with accessed := 1, lastAccessed := some 77 } ∧
    (loadMemories (updateMemoryAccess fsC10 "u10" "y" 77) "u10")[0]? =
        some mC10x ∧
    updateMemoryAccess fsC10 "u10" "zzz" 77 = fsC10 := by
  have h := touch_increments_one_record fsC10 "u10" "y" 77
  have h2 := (h.2 1 (by decide))
  refine ⟨?_, ?_, ?_⟩
  · rw [h2.2.1]; decide
  · rw [h2.2.2 0 (by decide)]; decide
  · exact (touch_increments_one_record fsC10 "u10" "zzz" 77).1 (by decide)

/-- `message.toLowerCase()`, modelled as character-wise ASCII lowering
(the program's keyword tables and messages are Japanese plus ASCII, for
which this matches the JavaScript behavior). -/
def toLowerString (s : String) : String :=
  String.mk (s.toList.map Char.toLower)

/-- `text.includes(pattern)`: substring containment. -/
def includesSub (text pattern : String) : Bool :=
  text.toList.tails.any (fun t => pattern.toList.isPrefixOf t)

/-- `containsPattern` from `memory-analyzer.ts`: some pattern occurs in the
text. -/
def containsPattern (text : String) (patterns : List String) : Bool :=
  patterns.any (fun pattern => includesSub text pattern)

/-- `PATTERNS.learningProgress.keywords`. -/
def progressKeywords : List String :=
  ["覚えた", "理解した", "取れた", "点", "スコア", "合格",
   "できるようになった", "上達", "向上", "成長"]

/-- `PATTERNS.learningProgress.subjects`, in object-entry order. -/
def progressSubjects : List (String × List String) :=
  [("vocabulary", ["単語", "語彙", "ボキャブラリー"]),
   ("listening", ["リスニング", "聞き取り", "ヒアリング"]),
   ("reading", ["読解", "リーディング", "長文"]),
   ("writing", ["ライティング", "作文", "エッセイ"]),
   ("grammar", ["文法", "グラマー"]),
   ("speaking", ["スピーキング", "会話", "発音"])]

/-- `PATTERNS.learningChallenge.keywords`. -/
def challengeKeywords : List String :=
  ["難しい", "苦手", "わからない", "困っ", "できない", "課題", "問題",
   "悩み", "つらい", "大変", "点数低い", "点数悪い", "成績", "失敗"]

/-- `PATTERNS.learningChallenge.categories`, in object-entry order. -/
def challengeCategories : List (String × List String) :=
  [("grammar", ["文法", "時制", "関係詞", "仮定法"]),
   ("vocabulary", ["単語", "語彙", "覚えられない"]),
   ("timeManagement", ["時間", "間に合わない", "足りない"]),
   ("motivation", ["やる気", "モチベーション", "続かない"]),
   ("comprehension", ["理解", "意味", "わからない"]),
   ("pronunciation", ["発音", "音", "聞き取れない"]),
   ("test_performance", ["点数", "スコア", "テスト", "試験", "成績"])]

/-- `PATTERNS.commitment.keywords`. -/
def commitmentKeywords : List String :=
  ["宿題", "課題", "約束", "までに", "次回", "練習", "毎日", "週"]

/-- `PATTERNS.commitment.frequency`, in object-entry order. -/
def commitmentFrequency : List (String × List String) :=
  [("daily", ["毎日", "日々", "デイリー"]),
   ("weekly", ["週", "毎週", "ウィークリー"]),
   ("once", ["一回", "一度", "次回まで"])]

/-- `PATTERNS.emotionalState.emotions`, in object-entry order. -/
def emotionTable : List (String × List String) :=
  [("anxious", ["不安", "心配", "緊張", "ドキドキ"]),
   ("motivated", ["やる気", "がんばる", "頑張", "モチベーション"]),
   ("frustrated", ["イライラ", "うまくいかない", "もどかしい", "腹立つ",
                   "むかつく", "ムカつく"]),
   ("confident", ["自信", "大丈夫", "できる"]),
   ("tired", ["疲れ", "つかれ", "しんどい", "眠い", "ねむい", "眠く", "ねむく"]),
   ("excited", ["楽しい", "ワクワク", "楽しみ", "楽しい話", "面白い話",
                "おもしろい話", "楽しく", "面白く"]),
   ("stressed", ["ストレス", "プレッシャー", "焦"]),
   ("sad", ["悲しい", "辛い", "つらい", "泣きそう", "泣いた"]),
   ("depressed", ["落ち込", "へこん", "テンション下が", "憂鬱", "ゆううつ",
                  "嫌なこと"]),
   ("angry", ["怒", "腹立", "むかつ", "ムカつ", "頭にくる", "頭きた"])]

/-- `PATTERNS.milestone.keywords`. -/
def milestoneKeywords : List String :=
  ["試験", "テスト", "本番", "受験", "イベント", "予定", "月", "日"]

/-- `PATTERNS.milestone.importance`, in object-entry order. -/
def milestoneImportance : List (String × List String) :=
  [("critical", ["本番", "受験", "最終", "決定"]),
   ("high", ["重要", "大切", "大事"]),
   ("medium", ["予定", "計画"])]

/-- The shared shape of `detectSubject` / `detectCategory` /
`detectFrequency` / `detectEmotion` / `detectImportance`: scan the table in
entry order and return the first group one of whose keywords occurs. -/
def detectFromTable (text : String) : List (String × List String) → Option String
  | [] => none
  | (name, keywords) :: rest =>
      if containsPattern text keywords then some name
      else detectFromTable text rest

/-- `\d` of the source's date regexes. -/
def isDigitChar (c : Char) : Bool := decide ('0' ≤ c) && decide (c ≤ '9')

/-- The suffixes left after consuming one or two leading digits
(`\d{1,2}`). -/
def rests1or2Digits : List Char → List (List Char)
  | [] => []
  | c :: r =>
      if isDigitChar c then
        [r] ++ (match r with
                | c2 :: r2 => if isDigitChar c2 then [r2] else []
                | [] => [])
      else []

/-- The suffix left after consuming exactly four leading digits
(`\d{4}`). -/
def restsExactly4Digits : List Char → List (List Char)
  | c1 :: c2 :: c3 :: c4 :: r =>
      if isDigitChar c1 && isDigitChar c2 && isDigitChar c3 && isDigitChar c4
      then [r] else []
  | _ => []

/-- The suffixes left after consuming one or more leading digits
(`\d+`). -/
def restsDigitsPlus : List Char → List (List Char)
  | [] => []
  | c :: r => if isDigitChar c then r :: restsDigitsPlus r else []

/-- A match of `\d{1,2}月\d{1,2}日` starting at this position. -/
def matchesMonthDayAt (s : List Char) : Bool :=
  (rests1or2Digits s).any (fun r1 =>
    match r1 with
    | c :: r2 => c = '月' && (rests1or2Digits r2).any (fun r3 =>
        match r3 with
        | d :: _ => d = '日'
        | [] => false)
    | [] => false)

/-- A match of `\d{4}年\d{1,2}月` starting at this position. -/
def matchesYearMonthAt (s : List Char) : Bool :=
  (restsExactly4Digits s).any (fun r1 =>
    match r1 with
    | c :: r2 => c = '年' && (rests1or2Digits r2).any (fun r3 =>
        match r3 with
        | d :: _ => d = '月'
        | [] => false)
    | [] => false)

/-- A match of `\d+日後` starting at this position. -/
def matchesDaysLaterAt (s : List Char) : Bool :=
  (restsDigitsPlus s).any (fun r =>
    match r with
    | a :: b :: _ => a = '日' && b = '後'
    | _ => false)

/-- `containsDate` from `memory-analyzer.ts`: the four literal date
patterns — `\d{1,2}月\d{1,2}日`, `\d{4}年\d{1,2}月`, the relative-day words,
and `\d+日後|週間後|ヶ月後`. -/
def containsDate (text : String) : Bool :=
  let chars := text.toList
  chars.tails.any matchesMonthDayAt ||
  chars.tails.any matchesYearMonthAt ||
  containsPattern text ["来週", "今週", "来月", "今月", "明日", "今日", "昨日"] ||
  (chars.tails.any matchesDaysLaterAt ||
   containsPattern text ["週間後", "ヶ月後"])

/-- `MemorySaveDecision` from `memory-types.ts`. -/
structure MemorySaveDecision where
  shouldSave : Bool
  type : Option MemoryType := none
  confidence : ℚ
  reason : Option String := none
  suggestedTags : Option (List String) := none
deriving DecidableEq, Repr

/-- The first source branch: a progress keyword must occur AND a subject
must be detectable; a keyword hit without a subject falls through. -/
def progressBranch (lower : String) : Option String :=
  if containsPattern lower progressKeywords
  then detectFromTable lower progressSubjects else none

/-- The second source branch: a challenge keyword must occur AND a category
must be detectable; a keyword hit without a category falls through. -/
def challengeBranch (lower : String) : Option String :=
  if containsPattern lower challengeKeywords
  then detectFromTable lower challengeCategories else none

/-- `analyzeSaveDecision(message, userId)` from `memory-analyzer.ts`: the
deterministic keyword cascade.  Each source branch early-returns when its
condition holds; a keyword hit whose secondary detection (subject/category)
fails falls through to the next branch. -/
def analyzeSaveDecision (message : String) (_userId : String) :
    MemorySaveDecision :=
  let lowerMessage := (toLowerString message)
  match progressBranch lowerMessage with
  | some subject =>
      { shouldSave := true, type := some .learning_progress, confidence := 0.8,
        reason := some "学習成果の報告を検出",
        suggestedTags := some ["progress", subject] }
  | none =>
  match challengeBranch lowerMessage with
  | some category =>
      { shouldSave := true, type := some .learning_challenge,
        confidence := 0.85, reason := some "学習上の困難を検出",
        suggestedTags := some ["challenge", category] }
  | none =>
  if containsPattern lowerMessage commitmentKeywords then
    { shouldSave := true, type := some .commitment, confidence := 0.9,
      reason := some "約束や宿題を検出",
      suggestedTags := some ["commitment",
        (detectFromTable lowerMessage commitmentFrequency).getD "once"] }
  else
  match detectFromTable lowerMessage emotionTable with
  | some emotion =>
      { shouldSave := true, type := some .emotional_state, confidence := 0.75,
        reason := some "感情表現を検出",
        suggestedTags := some ["emotion", emotion] }
  | none =>
  if containsPattern lowerMessage milestoneKeywords && containsDate lowerMessage
  then
    { shouldSave := true, type := some .milestone, confidence := 0.95,
      reason := some "重要イベントを検出",
      suggestedTags := some ["milestone",
        (detectFromTable lowerMessage milestoneImportance).getD "medium"] }
  else
    { shouldSave := false, confidence := 0,
      reason := some "保存対象のパターンが見つかりません" }

/-- The keyword hints computed at the start of
`analyzeSaveDecisionWithLLM`.  The `milestone` hint applies `containsDate`
to the original (unlowered) message, as the source does. -/
structure KeywordHints where
  learningProgress : Bool
  learningChallenge : Bool
  commitment : Bool
  emotionalState : Option String
  milestone : Bool
deriving DecidableEq, Repr

def computeHints (message : String) : KeywordHints :=
  { learningProgress := containsPattern (toLowerString message) progressKeywords,
    learningChallenge := containsPattern (toLowerString message) challengeKeywords,
    commitment := containsPattern (toLowerString message) commitmentKeywords,
    emotionalState := detectFromTable (toLowerString message) emotionTable,
    milestone := containsPattern (toLowerString message) milestoneKeywords &&
                 containsDate message }

/-- `Object.values(hints).some(h => h)`: JavaScript truthiness of the five
hint values (a detected emotion name is a non-empty string, hence truthy;
`null` is falsy). -/
def hintsAny (h : KeywordHints) : Bool :=
  h.learningProgress || h.learningChallenge || h.commitment ||
  h.emotionalState.isSome || h.milestone

/-- The parsed JSON object a successful LLM call yields
(`{shouldSave, type, confidence, reason, suggestedTags}`). -/
structure LLMDecision where
  shouldSave : Bool
  type : Option MemoryType
  confidence : ℚ
  reason : String
  suggestedTags : List String
deriving DecidableEq, Repr

/-- The tag-reinforcement steps at the end of `analyzeSaveDecisionWithLLM`:
when a hint/subject/category was detected and the final type matches, the
suggested tags are replaced by the corresponding fixed pair.  Only
`suggestedTags` is ever modified. -/
def reinforceTags (hints : KeywordHints) (detectedSubject : Option String)
    (detectedCategory : Option String) (d : MemorySaveDecision) :
    MemorySaveDecision :=
  let d : MemorySaveDecision :=
    match hints.emotionalState with
    | some e =>
        if d.type = some .emotional_state
        then { d with suggestedTags := some ["emotion", e] }
        else d
    | none => d
  let d : MemorySaveDecision :=
    match detectedSubject with
    | some s =>
        if d.type = some .learning_progress
        then { d with suggestedTags := some ["progress", s] }
        else d
    | none => d
  match detectedCategory with
  | some c =>
      if d.type = some .learning_challenge
      then { d with suggestedTags := some ["challenge", c] }
      else d
  | none => d

lemma reinforceTags_preserves (hints : KeywordHints)
    (detectedSubject detectedCategory : Option String)
    (d : MemorySaveDecision) :
    (reinforceTags hints detectedSubject detectedCategory d).shouldSave =
        d.shouldSave ∧
    (reinforceTags hints detectedSubject detectedCategory d).confidence =
        d.confidence ∧
    (reinforceTags hints detectedSubject detectedCategory d).type = d.type := by
  cases hints.emotionalState <;> cases detectedSubject <;>
    cases detectedCategory <;> simp only [reinforceTags] <;>
    (repeat' split) <;> simp_all

/-- `analyzeSaveDecisionWithLLM(message, userId)` from
`memory-analyzer.ts`, with the external LLM call abstracted as its outcome:
`.error` stands for any throw inside the try block (network failure or
`JSON.parse` failure on a malformed response), `.ok` for a parsed judgment.
On error, fall back to `analyzeSaveDecision`.  On success, reconcile with
the keyword hints (the two confidence adjustments), then reinforce the
suggested tags from the detected emotion/subject/category. -/
def analyzeSaveDecisionWithLLM (message userId : String)
    (llmResponse : Except String LLMDecision) : MemorySaveDecision :=
  let hints := computeHints message
  let detectedSubject := detectFromTable (toLowerString message) progressSubjects
  let detectedCategory := detectFromTable (toLowerString message) challengeCategories
  match llmResponse with
  | .error _ => analyzeSaveDecision message userId
  | .ok llmDecision =>
      let finalDecision : MemorySaveDecision :=
        { shouldSave := llmDecision.shouldSave, type := llmDecision.type,
          confidence := llmDecision.confidence,
          reason := some llmDecision.reason,
          suggestedTags := some llmDecision.suggestedTags }
      let finalDecision : MemorySaveDecision :=
        if !llmDecision.shouldSave && hintsAny hints then
          { finalDecision with
            shouldSave := true,
            confidence := min (llmDecision.confidence * 0.6) 0.6,
            reason := some (llmDecision.reason ++ "（キーワード検出）") }
        else if llmDecision.shouldSave && !hintsAny hints then
          { finalDecision with
            confidence := min (llmDecision.confidence * 1.1) 1.0 }
        else finalDecision
      reinforceTags hints detectedSubject detectedCategory finalDecision

/-- Claim C2: `analyzeSaveDecision` evaluates the categories in the fixed
priority order learning_progress (progress keyword AND detectable subject) →
learning_challenge (challenge keyword AND detectable category) → commitment
(keyword alone) → emotional_state (emotion keyword alone) → milestone
(keyword AND date expression), returning on the first matching branch with
that branch's fixed confidence in 0.75–0.95 (milestone highest, confidences
0.8 / 0.85 / 0.9 / 0.75 / 0.95) and exactly two suggested tags, and returns
`shouldSave = false` with `confidence = 0` when no branch matches. -/
theorem keyword_cascade_order_confidence_tags (message userId : String) :
    (∀ s, progressBranch (toLowerString message) = some s →
      analyzeSaveDecision message userId =
        { shouldSave := true, type := some .learning_progress,
          confidence := 0.8, reason := some "学習成果の報告を検出",
          suggestedTags := some ["progress", s] }) ∧
    (progressBranch (toLowerString message) = none →
      ∀ c, challengeBranch (toLowerString message) = some c →
      analyzeSaveDecision message userId =
        { shouldSave := true, type := some .learning_challenge,
          confidence := 0.85, reason := some "学習上の困難を検出",
          suggestedTags := some ["challenge", c] }) ∧
    (progressBranch (toLowerString message) = none →
      challengeBranch (toLowerString message) = none →
      containsPattern (toLowerString message) commitmentKeywords = true →
      analyzeSaveDecision message userId =
        { shouldSave := true, type := some .commitment, confidence := 0.9,
          reason := some "約束や宿題を検出",
          suggestedTags := some ["commitment",
            (detectFromTable (toLowerString message) commitmentFrequency).getD "once"] }) ∧
    (progressBranch (toLowerString message) = none →
      challengeBranch (toLowerString message) = none →
      containsPattern (toLowerString message) commitmentKeywords = false →
      ∀ e, detectFromTable (toLowerString message) emotionTable = some e →
      analyzeSaveDecision message userId =
        { shouldSave := true, type := some .emotional_state,
          confidence := 0.75, reason := some "感情表現を検出",
          suggestedTags := some ["emotion", e] }) ∧
    (progressBranch (toLowerString message) = none →
      challengeBranch (toLowerString message) = none →
      containsPattern (toLowerString message) commitmentKeywords = false →
      detectFromTable (toLowerString message) emotionTable = none →
      (containsPattern (toLowerString message) milestoneKeywords &&
        containsDate (toLowerString message)) = true →
      analyzeSaveDecision message userId =
        { shouldSave := true, type := some .milestone, confidence := 0.95,
          reason := some "重要イベントを検出",
          suggestedTags := some ["milestone",
            (detectFromTable (toLowerString message) milestoneImportance).getD
              "medium"] }) ∧
    (progressBranch (toLowerString message) = none →
      challengeBranch (toLowerString message) = none →
      containsPattern (toLowerString message) commitmentKeywords = false →
      detectFromTable (toLowerString message) emotionTable = none →
      (containsPattern (toLowerString message) milestoneKeywords &&
        containsDate (toLowerString message)) = false →
      analyzeSaveDecision message userId =
        { shouldSave := false, confidence := 0,
          reason := some "保存対象のパターンが見つかりません" }) ∧
    ((analyzeSaveDecision message userId).shouldSave = true →
      (0.75 ≤ (analyzeSaveDecision message userId).confidence ∧
       (analyzeSaveDecision message userId).confidence ≤ 0.95) ∧
      ((analyzeSaveDecision message userId).confidence = 0.95 ↔
        (analyzeSaveDecision message userId).type = some .milestone) ∧
      ∃ ts, (analyzeSaveDecision message userId).suggestedTags = some ts ∧
        ts.length = 2) ∧
    ((analyzeSaveDecision message userId).shouldSave = false →
      (analyzeSaveDecision message userId).confidence = 0) := by
  refine ⟨?_, ?_, ?_, ?_, ?_, ?_, ?_, ?_⟩
  · intro s hs
    simp only [analyzeSaveDecision, hs]
  · intro hp c hc
    simp only [analyzeSaveDecision, hp, hc]
  · intro hp hc hcom
    simp only [analyzeSaveDecision, hp, hc, hcom, if_true]
  · intro hp hc hcom e he
    simp only [analyzeSaveDecision, hp, hc, hcom, he, Bool.false_eq_true,
      if_false]
  · intro hp hc hcom he hmil
    simp only [analyzeSaveDecision, hp, hc, hcom, he, hmil,
      Bool.false_eq_true, if_false, if_true]
  · intro hp hc hcom he hmil
    simp only [analyzeSaveDecision, hp, hc, hcom, he, hmil,
      Bool.false_eq_true, if_false]
  · intro hsave
    unfold analyzeSaveDecision
    unfold analyzeSaveDecision at hsave
    cases hp : progressBranch (toLowerString message) with
    | some s =>
        simp only [hp] at hsave ⊢
        refine ⟨by norm_num, ?_, ⟨["progress", s], rfl, rfl⟩⟩
        constructor
        · intro h08
          exact absurd h08 (by norm_num)
        · intro hty
          cases hty
    | none =>
    simp only [hp] at hsave ⊢
    cases hc : challengeBranch (toLowerString message) with
    | some c =>
        simp only [hc] at hsave ⊢
        refine ⟨by norm_num, ?_, ⟨["challenge", c], rfl, rfl⟩⟩
        constructor
        · intro h
          exact absurd h (by norm_num)
        · intro hty
          cases hty
    | none =>
    simp only [hc] at hsave ⊢
    by_cases hcom : containsPattern (toLowerString message) commitmentKeywords
    · simp only [hcom, if_true] at hsave ⊢
      refine ⟨by norm_num, ?_,
        ⟨["commitment",
          (detectFromTable (toLowerString message) commitmentFrequency).getD "once"],
         rfl, rfl⟩⟩
      constructor
      · intro h
        exact absurd h (by norm_num)
      · intro hty
        cases hty
    · simp only [hcom, if_false] at hsave ⊢
      cases he : detectFromTable (toLowerString message) emotionTable with
      | some e =>
          simp only [he] at hsave ⊢
          refine ⟨by norm_num, ?_, ⟨["emotion", e], rfl, rfl⟩⟩
          constructor
          · intro h
            exact absurd h (by norm_num)
          · intro hty
            cases hty
      | none =>
      simp only [he] at hsave ⊢
      by_cases hmil : (containsPattern (toLowerString message) milestoneKeywords &&
          containsDate (toLowerString message)) = true
      · simp only [hmil, if_true] at hsave ⊢
        refine ⟨by norm_num, ?_,
          ⟨["milestone",
            (detectFromTable (toLowerString message) milestoneImportance).getD
              "medium"], rfl, rfl⟩⟩
        exact ⟨fun _ => rfl, fun _ => rfl⟩
      · simp only [hmil, if_false] at hsave
        cases hsave
  · intro hsave
    unfold analyzeSaveDecision
    unfold analyzeSaveDecision at hsave
    cases hp : progressBranch (toLowerString message) with
    | some s => simp only [hp] at hsave; cases hsave
    | none =>
    simp only [hp] at hsave ⊢
    cases hc : challengeBranch (toLowerString message) with
    | some c => simp only [hc] at hsave; cases hsave
    | none =>
    simp only [hc] at hsave ⊢
    by_cases hcom : containsPattern (toLowerString message) commitmentKeywords
    · simp only [hcom, if_true] at hsave; cases hsave
    · simp only [hcom, if_false] at hsave ⊢
      cases he : detectFromTable (toLowerString message) emotionTable with
      | some e => simp only [he] at hsave; cases hsave
      | none =>
      simp only [he] at hsave ⊢
      by_cases hmil : (containsPattern (toLowerString message) milestoneKeywords &&
          containsDate (toLowerString message)) = true
      · simp only [hmil, if_true] at hsave; cases hsave
      · simp only [hmil, if_false]
        simp

unseal Rat.ofScientific Rat.mul List.merge List.mergeSort in
theorem keyword_cascade_order_confidence_tags_witness :
    analyzeSaveDecision "単語を覚えた！50点取れた" "u" =
      { shouldSave := true, type := some .learning_progress, confidence := 0.8,
        reason := some "学習成果の報告を検出",
        suggestedTags := some ["progress", "vocabulary"] } ∧
    analyzeSaveDecision "明日までにリスニングの宿題をやる" "u" =
      { shouldSave := true, type := some .commitment, confidence := 0.9,
        reason := some "約束や宿題を検出",
        suggestedTags := some ["commitment", "once"] } := by
  constructor
  · exact (keyword_cascade_order_confidence_tags "単語を覚えた！50点取れた"
      "u").1 "vocabulary" (by decide)
  · have h := (keyword_cascade_order_confidence_tags
      "明日までにリスニングの宿題をやる" "u").2.2.1 (by decide) (by decide)
      (by decide)
    rw [h]
    decide


/-- Claim C3: in the hybrid decision, whenever the LLM judgment has
`shouldSave = false` but at least one keyword hint fired, the final decision
has `shouldSave = true` and confidence `min(llmConfidence * 0.6, 0.6)`; and
whenever the LLM judgment has `shouldSave = true` and no keyword hint
fired, the final confidence is `min(llmConfidence * 1.1, 1.0)`. -/
theorem hybrid_confidence_blend (message userId : String) (llm : LLMDecision) :
    (llm.shouldSave = false → hintsAny (computeHints message) = true →
      (analyzeSaveDecisionWithLLM message userId (.ok llm)).shouldSave = true ∧
      (analyzeSaveDecisionWithLLM message userId (.ok llm)).confidence =
        min (llm.confidence * 0.6) 0.6) ∧
    (llm.shouldSave = true → hintsAny (computeHints message) = false →
      (analyzeSaveDecisionWithLLM message userId (.ok llm)).confidence =
        min (llm.confidence * 1.1) 1.0) := by
  constructor
  · intro hns hh
    unfold analyzeSaveDecisionWithLLM
    simp only [hns, hh, Bool.not_false, Bool.true_and, if_true]
    constructor
    · rw [(reinforceTags_preserves _ _ _ _).1]
    · rw [(reinforceTags_preserves _ _ _ _).2.1]
  · intro hs hh
    unfold analyzeSaveDecisionWithLLM
    simp only [hs, hh, Bool.not_true, Bool.false_and, Bool.not_false,
      Bool.true_and, Bool.and_false, if_false, if_true]
    rw [(reinforceTags_preserves _ _ _ _).2.1]
    simp

def llmC3no : LLMDecision :=
  { shouldSave := false, type := none, confidence := mkRat 1 2,
    reason := "記憶不要", suggestedTags := [] }

def llmC3yes : LLMDecision :=
  { shouldSave := true, type := some .custom, confidence := mkRat 1 2,
    reason := "文脈上重要", suggestedTags := ["context"] }

unseal Rat.ofScientific Rat.mul List.merge List.mergeSort in
theorem hybrid_confidence_blend_witness :
    (analyzeSaveDecisionWithLLM "毎日練習する" "u" (.ok llmC3no)).shouldSave
        = true ∧
    (analyzeSaveDecisionWithLLM "毎日練習する" "u" (.ok llmC3no)).confidence
        = mkRat 3 10 ∧
    (analyzeSaveDecisionWithLLM "zzz" "u" (.ok llmC3yes)).confidence
        = mkRat 11 20 := by
  have h1 := (hybrid_confidence_blend "毎日練習する" "u" llmC3no).1 rfl
    (by decide)
  have h2 := (hybrid_confidence_blend "zzz" "u" llmC3yes).2 rfl (by decide)
  refine ⟨h1.1, ?_, ?_⟩
  · rw [h1.2]
    decide
  · rw [h2]
    decide

/-- Claim C4: when the external LLM classifier fails (any throw inside the
try block: network error or unparseable response), the hybrid decision is
exactly the keyword decision `analyzeSaveDecision(message, userId)`, and no
error propagates (the function totalizes to a decision). -/
theorem hybrid_llm_failure_falls_back (message userId err : String) :
    analyzeSaveDecisionWithLLM message userId (.error err) =
      analyzeSaveDecision message userId := by
  rfl

/-- `MemoryRetrievalDecision` from `memory-types.ts`; the `Map` of
relevance scores is modelled as an association list where `set` prepends
(so a lookup finds the most recent write, matching `Map.set`/`Map.get`
overwrite semantics). -/
structure MemoryRetrievalDecision where
  memories : List Memory
  relevanceScores : List (String × ℚ)
  reason : String
deriving DecidableEq, Repr

/-- `relevanceScores.set(id, v)`. -/
def setScore (scores : List (String × ℚ)) (id : String) (v : ℚ) :
    List (String × ℚ) :=
  (id, v) :: scores

/-- `relevanceScores.get(id) || 0` (the sort comparator's read). -/
def getScore (scores : List (String × ℚ)) (id : String) : ℚ :=
  (scores.lookup id).getD 0

/-- Read a named field of a `content` payload (property access on the
parsed payload object). -/
def contentField (c : Json) (k : String) : Option JsonAtom :=
  match c with
  | .obj fields => fields.lookup k
  | .atom _ => none

/-- `new Date(content.k).getTime()`: a date-valued string yields its
instant; a missing or non-date field yields an invalid date (`NaN`), on
which every comparison below is false. -/
def contentDate (c : Json) (k : String) : Option Int :=
  match contentField c k with
  | some (.date d) => some d
  | _ => none

/-- A string-valued content field (`content.k` where a string is
expected). -/
def contentStr (c : Json) (k : String) : Option String :=
  match contentField c k with
  | some (.str s) => some s
  | _ => none

/-- JavaScript truthiness of a payload field (`content.k` used as a
boolean): `undefined`, `null`, `false`, `0`, `""` are falsy. -/
def contentTruthy (c : Json) (k : String) : Bool :=
  match contentField c k with
  | some .null => false
  | some (.bool b) => b
  | some (.num q) => q ≠ 0
  | some (.str s) => s ≠ ""
  | some (.date _) => true
  | some (.strArr _) => true
  | none => false

/-- `Math.ceil(a / b)` on integers, for `b > 0`. -/
def ceilDiv (a b : Int) : Int := -((-a).fdiv b)

/-- `Math.ceil((t - currentDate) / (1000*60*60*24))`: days until `t`. -/
def daysUntil (t currentDate : Int) : Int := ceilDiv (t - currentDate) msPerDay

/-- The stopword list of `extractKeywords`. -/
def stopWords : List String :=
  ["は", "が", "を", "に", "で", "と", "の", "です", "ます", "した"]

/-- The split characters of `extractKeywords`
(`/[\s、。！？]/`). -/
def isSplitChar (c : Char) : Bool :=
  c = ' ' || c = '\t' || c = '\n' || c = '\r' || c = '　' ||
  c = '、' || c = '。' || c = '！' || c = '？'

/-- `extractKeywords` from `memory-analyzer.ts`: split on
whitespace/punctuation, keep words longer than one character that are not
stopwords, first 10. -/
def extractKeywords (text : String) : List String :=
  ((text.split isSplitChar).filter
    (fun word => word.length > 1 && !stopWords.contains word)).take 10

/-- `isRelatedContent` from `memory-analyzer.ts`: at least two shared
significant words. -/
def isRelatedContent (text previousContent : String) : Bool :=
  let keywords1 := extractKeywords text
  let keywords2 := extractKeywords previousContent
  (keywords1.filter (fun k => keywords2.contains k)).length ≥ 2

/-- The relevance given to an approaching milestone by its importance:
`critical ? 1.0 : high ? 0.9 : 0.8`. -/
def milestoneRelevance (importance : Option String) : ℚ :=
  match importance with
  | some s => if s = "critical" then 1.0 else if s = "high" then 0.9 else 0.8
  | none => 0.8

/-- The four candidate-gathering passes of `analyzeRetrievalDecision`, in
source order, returning the pushed memories and the score map they build:
1. not-expired commitments with a deadline within [-1, 3] days, not
   completed → 0.9;
2. when the message has a challenge keyword: unresolved, related
   not-expired challenges → 0.8;
3. when the message expresses an emotion: emotional states of the last 7
   days with the same emotion (or anxious matching stressed) → 0.7;
4. not-expired milestones with an event date within [0, 14] days → by
   importance. -/
def retrievalCandidates (fs : FS) (message userId : String)
    (currentDate : Int) :
    Except String (List Memory × List (String × ℚ)) := do
  let commitments ← searchMemories fs
    { userId := some userId, type := some (.inl .commitment),
      notExpired := true, limit := some 5 } currentDate
  let pass1 := commitments.filter (fun memory =>
    match contentDate memory.content "deadline" with
    | some deadline =>
        let d := daysUntil deadline currentDate
        decide (d ≤ 3) && decide (-1 ≤ d) &&
          !(contentTruthy memory.content "completed")
    | none => false)
  let relevantMemories := pass1
  let relevanceScores := pass1.foldl (fun s m => setScore s m.id 0.9) []
  let lowerMessage := toLowerString message
  let r ←
    if containsPattern lowerMessage challengeKeywords then do
      let challenges ← searchMemories fs
        { userId := some userId, type := some (.inl .learning_challenge),
          notExpired := true, limit := some 3 } currentDate
      let keep := challenges.filter (fun memory =>
        !(contentTruthy memory.content "resolved") &&
        isRelatedContent lowerMessage
          ((contentStr memory.content "description").getD ""))
      pure (relevantMemories ++ keep,
        keep.foldl (fun s m => setScore s m.id 0.8) relevanceScores)
    else pure (relevantMemories, relevanceScores)
  let relevantMemories := r.1
  let relevanceScores := r.2
  let recentEmotions ← searchMemories fs
    { userId := some userId, type := some (.inl .emotional_state),
      fromDate := some (currentDate - 7 * msPerDay), limit := some 5 }
    currentDate
  let r : List Memory × List (String × ℚ) :=
    match detectFromTable lowerMessage emotionTable with
    | some currentEmotion =>
        let keep : List Memory := recentEmotions.filter (fun memory =>
          match contentStr memory.content "emotion" with
          | some e => e = currentEmotion ||
              (currentEmotion = "anxious" && e = "stressed")
          | none => false)
        (relevantMemories ++ keep,
         keep.foldl (fun s (m : Memory) => setScore s m.id 0.7) relevanceScores)
    | none => (relevantMemories, relevanceScores)
  let relevantMemories := r.1
  let relevanceScores := r.2
  let milestones ← searchMemories fs
    { userId := some userId, type := some (.inl .milestone),
      notExpired := true, limit := some 3 } currentDate
  let pass4 : List Memory := milestones.filter (fun memory =>
    match contentDate memory.content "eventDate" with
    | some eventDate =>
        let d := daysUntil eventDate currentDate
        decide (d ≤ 14) && decide (0 ≤ d)
    | none => false)
  pure (relevantMemories ++ pass4,
    pass4.foldl (fun s (m : Memory) =>
      setScore s m.id (milestoneRelevance (contentStr m.content "importance")))
      relevanceScores)

/-- `Array.from(new Set(ids)).map(id => first memory with that id)`:
deduplicate by id keeping the first occurrence. -/
def dedupById (l : List Memory) : List Memory :=
  go l []
where
  go : List Memory → List String → List Memory
  | [], _ => []
  | m :: rest, seen =>
      if seen.contains m.id then go rest seen
      else m :: go rest (m.id :: seen)

/-- `analyzeRetrievalDecision(message, userId, currentDate)` from
`memory-analyzer.ts`: gather candidates, deduplicate by id, sort by score
descending (stable), keep the top 3; when nothing matched, fall back to a
`searchMemories` with only `notExpired` and `limit = 3` (whose results each
get the flat score 0.3) and return those. -/
def analyzeRetrievalDecision (fs : FS) (message userId : String)
    (currentDate : Int) : Except String MemoryRetrievalDecision := do
  let r ← retrievalCandidates fs message userId currentDate
  let relevantMemories := r.1
  let relevanceScores := r.2
  let uniqueMemories := ((dedupById relevantMemories).mergeSort
    (fun a b => getScore relevanceScores b.id ≤ getScore relevanceScores a.id)
    ).take 3
  if uniqueMemories.isEmpty then
    let recentMemories ← searchMemories fs
      { userId := some userId, limit := some 3, notExpired := true }
      currentDate
    let finalMemories := uniqueMemories ++ recentMemories
    let relevanceScores := recentMemories.foldl
      (fun s m => setScore s m.id 0.3) relevanceScores
    pure { memories := finalMemories.take 3,
           relevanceScores := relevanceScores,
           reason := toString finalMemories.length ++ "件の関連メモリーを取得" }
  else
    pure { memories := uniqueMemories.take 3,
           relevanceScores := relevanceScores,
           reason := toString uniqueMemories.length ++ "件の関連メモリーを取得" }

lemma except_bind_ok {α β : Type} (v : α) (f : α → Except String β) :
    (Except.ok v : Except String α) >>= f = f v := rfl

lemma getScore_setScore_self (s0 : List (String × ℚ)) (k : String) (v : ℚ) :
    getScore (setScore s0 k v) k = v := by
  simp [getScore, setScore]

lemma getScore_foldl_setScore_of_base (v : ℚ) (k : String) :
    ∀ (ms : List Memory) (s0 : List (String × ℚ)), getScore s0 k = v →
      getScore (ms.foldl (fun s m => setScore s m.id v) s0) k = v := by
  intro ms
  induction ms with
  | nil => intro s0 h; exact h
  | cons x rest ih =>
      intro s0 h
      apply ih
      by_cases hk : k = x.id
      · subst hk
        exact getScore_setScore_self s0 x.id v
      · have hbeq : (k == x.id) = false := beq_eq_false_iff_ne.mpr hk
        simpa [getScore, setScore, List.lookup, hbeq] using h

lemma getScore_foldl_setScore_mem (v : ℚ) (m : Memory) :
    ∀ (ms : List Memory) (s0 : List (String × ℚ)), m ∈ ms →
      getScore (ms.foldl (fun s x => setScore s x.id v) s0) m.id = v := by
  intro ms
  induction ms with
  | nil => intro s0 h; cases h
  | cons x rest ih =>
      intro s0 hm
      rcases List.mem_cons.mp hm with heq | hrest
      · subst heq
        exact getScore_foldl_setScore_of_base v m.id rest _
          (getScore_setScore_self s0 m.id v)
      · exact ih _ hrest

/-- Claim C1, amended: when none of the four candidate-gathering passes of
`analyzeRetrievalDecision` produces a match, the result is the top 3
NOT-EXPIRED memories by DESCENDING RELEVANCE (stable, i.e. storage order on
ties) — not the 3 most recently stored — each assigned the flat score 0.3;
and a user with zero stored memories gets an empty memory list without
error. -/
theorem retrieval_fallback_top3_by_relevance (fs : FS)
    (message userId : String) (currentDate : Int)
    (scores0 : List (String × ℚ))
    (hid : userId ≠ "")
    (hcand : retrievalCandidates fs message userId currentDate =
      .ok ([], scores0)) :
    ∃ r, analyzeRetrievalDecision fs message userId currentDate = .ok r ∧
      r.memories = (sortByRelevance ((loadMemories fs userId).filter
        (notExpiredCheck currentDate))).take 3 ∧
      (∀ m ∈ r.memories, getScore r.relevanceScores m.id = 0.3) ∧
      (loadMemories fs userId = [] → r.memories = []) := by
  have hpipe : ∀ ms : List Memory, searchPipeline ms
      { userId := some userId, limit := some 3, notExpired := true }
      currentDate
      = (sortByRelevance (ms.filter (notExpiredCheck currentDate))).take 3 := by
    intro ms
    unfold searchPipeline filterByType filterByTags filterByDateRange
      filterByMinRelevance filterByExpiry applyLimit
    norm_num
  have hsearch : searchMemories fs
      { userId := some userId, limit := some 3, notExpired := true }
      currentDate = .ok ((sortByRelevance ((loadMemories fs userId).filter
        (notExpiredCheck currentDate))).take 3) := by
    unfold searchMemories
    simp only [hid, if_false]
    rw [hpipe]
  have hmain : analyzeRetrievalDecision fs message userId currentDate =
      .ok { memories := (sortByRelevance ((loadMemories fs userId).filter
              (notExpiredCheck currentDate))).take 3,
            relevanceScores :=
              ((sortByRelevance ((loadMemories fs userId).filter
                (notExpiredCheck currentDate))).take 3).foldl
                (fun s m => setScore s m.id 0.3) scores0,
            reason := toString ((sortByRelevance ((loadMemories fs
              userId).filter (notExpiredCheck currentDate))).take 3).length
              ++ "件の関連メモリーを取得" } := by
    unfold analyzeRetrievalDecision
    rw [hcand, except_bind_ok]
    simp only [List.mergeSort_nil, List.take_nil, List.isEmpty_nil, if_true,
      dedupById, dedupById.go]
    rw [hsearch, except_bind_ok]
    simp only [List.nil_append, List.take_take, Nat.min_self]
    rfl
  refine ⟨_, hmain, rfl, ?_, ?_⟩
  · intro m hm
    exact getScore_foldl_setScore_mem 0.3 m _ scores0 hm
  · intro hempty
    simp [hempty, sortByRelevance]

def mC1a : Memory :=
  { id := "a", userId := "u1", sessionId := "s", type := .custom,
    content := Json.atom .null, timestamp := 10, relevance := mkRat 9 10,
    accessed := 0, lastAccessed := none, tags := [], expired := false,
    expiresAt := none }

def mC1b : Memory :=
  { id := "b", userId := "u1", sessionId := "s", type := .custom,
    content := Json.atom .null, timestamp := 20, relevance := mkRat 5 10,
    accessed := 0, lastAccessed := none, tags := [], expired := false,
    expiresAt := none }

def mC1c : Memory :=
  { id := "c", userId := "u1", sessionId := "s", type := .custom,
    content := Json.atom .null, timestamp := 30, relevance := mkRat 4 10,
    accessed := 0, lastAccessed := none, tags := [], expired := false,
    expiresAt := none }

def mC1d : Memory :=
  { id := "d", userId := "u1", sessionId := "s", type := .custom,
    content := Json.atom .null, timestamp := 40, relevance := mkRat 1 10,
    accessed := 0, lastAccessed := none, tags := [], expired := false,
    expiresAt := none }

/-- Four stored memories for user `u1`, in append order; `mC1d` is the most
recently stored and has the lowest relevance. -/
def fsC1 : FS := fun u =>
  if u = "u1" then
    some [RawLine.json (serializeMemory mC1a),
          RawLine.json (serializeMemory mC1b),
          RawLine.json (serializeMemory mC1c),
          RawLine.json (serializeMemory mC1d)]
  else none

unseal Rat.ofScientific Rat.mul List.merge List.mergeSort in
/-- Counterexample to claim C1 as stated: on the message `"hello"` (which
triggers none of the four candidate passes) the fallback returns the top 3
memories by relevance — `[mC1a, mC1b, mC1c]`, including the OLDEST record —
while the 3 most recently stored, not-expired memories would be
`mC1b, mC1c, mC1d`: the most recent record `mC1d` is not returned. -/
theorem retrieval_fallback_recency_counterexample :
    (analyzeRetrievalDecision fsC1 "hello" "u1" 1000).toOption.map
        (fun r => r.memories) = some [mC1a, mC1b, mC1c] ∧
    mC1d.expired = false ∧ mC1d.expiresAt = none ∧
    mC1a.timestamp < mC1b.timestamp ∧ mC1b.timestamp < mC1c.timestamp ∧
    mC1c.timestamp < mC1d.timestamp ∧
    mC1d ∉ [mC1a, mC1b, mC1c] ∧ mC1a ∈ [mC1a, mC1b, mC1c] := by
  decide

unseal Rat.ofScientific Rat.mul List.merge List.mergeSort in
theorem retrieval_fallback_top3_by_relevance_witness :
    (analyzeRetrievalDecision fsC1 "hello" "u1" 1000).toOption.map
        (fun r => (r.memories, getScore r.relevanceScores "a")) =
      some ([mC1a, mC1b, mC1c], mkRat 3 10) ∧
    (analyzeRetrievalDecision fsC1 "hello" "nobody" 1000).toOption.map
        (fun r => r.memories) = some [] := by
  obtain ⟨r, hr, hmem, hsc, hemp⟩ := retrieval_fallback_top3_by_relevance
    fsC1 "hello" "u1" 1000 [] (by decide) (by rfl)
  obtain ⟨r2, hr2, hmem2, hsc2, hemp2⟩ := retrieval_fallback_top3_by_relevance
    fsC1 "hello" "nobody" 1000 [] (by decide) (by rfl)
  constructor
  · rw [hr]
    have h1 : r.memories = [mC1a, mC1b, mC1c] := by
      rw [hmem]; decide
    have h2 : getScore r.relevanceScores "a" = mkRat 3 10 := by
      have h := hsc mC1a (by rw [h1]; exact List.mem_cons_self _ _)
      have hida : mC1a.id = "a" := rfl
      rw [hida] at h
      rw [h]
      decide
    simp [Except.toOption, h1, h2]
  · rw [hr2]
    have h3 : r2.memories = [] := hemp2 (by decide)
    simp [Except.toOption, h3]

/-- Counterexample to claim C8 as stated: `MemoryType` is not a six-element
set — the variant `preference` lies outside
{learning_progress, learning_challenge, commitment, emotional_state,
milestone, custom}. -/
theorem memorytype_not_six_variants :
    ¬ (∀ t : MemoryType,
        t = .learning_progress ∨ t = .learning_challenge ∨
        t = .commitment ∨ t = .emotional_state ∨
        t = .milestone ∨ t = .custom) := by
  intro h
  rcases h .preference with h1 | h1 | h1 | h1 | h1 | h1 <;> cases h1

/-- Claim C8, amended: the `type` of every `Memory` record belongs to the
closed SEVEN-element set {learning_progress, learning_challenge,
commitment, emotional_state, milestone, preference, custom}: `MemoryType`
has exactly these seven variants (the source declares a `preference`
variant the claim omits), and since `Memory.type : MemoryType` is a field
of the closed inductive type, no operation can produce a record whose type
lies outside this set. -/
theorem memorytype_closed_seven_variants :
    ∀ m : Memory,
      m.type = .learning_progress ∨ m.type = .learning_challenge ∨
      m.type = .commitment ∨ m.type = .emotional_state ∨
      m.type = .milestone ∨ m.type = .preference ∨ m.type = .custom := by
  intro m
  cases h : m.type <;> simp
